import Mathlib

/-!
Verification of the lakeFS KV migration pipeline against its specification.

The development shallowly embeds:
* `pkg/kv/import.go` — the `Import` decode/apply loop over an export stream;
* `pkg/kv/postgres/migrate.go` — `validateVersion`, `Migrate`, `dropTables`;
* `pkg/ingest/store/azure.go` — `extractAzurePrefix`.

External collaborators (the JSON decoder, the KV store backend, the file
system and the SQL pool) are modelled at their interface: the decoder as a
pre-decoded record stream, the store as an association list with the
conditional-write semantics of the spec, and the effectful migration calls
as boolean outcomes supplied by an environment, with the actions the
coordinator performs recorded in an event trace.
-/

namespace LakeFS

/-! ## The KV store, modelled from the spec (§6):
`setIf(key, value, expectedPrevious = absent)` succeeds exactly when the key
currently has no value, otherwise it fails with the conditional-write
conflict. The store itself is an association list from keys to values
(byte sequences modelled as `List Nat`). -/

/-- A byte sequence (`[]byte` in Go). -/
abbrev Bytes := List Nat

/-- The KV store contents: an association list from keys to values. -/
abbrev Store := List (Bytes × Bytes)

/-- Look up a key in the store; `none` means the key has no value. -/
def lookup : Store → Bytes → Option Bytes
  | [], _ => none
  | (k, v) :: rest, key => if k = key then some v else lookup rest key

/-- Modelled from the spec: the store's conditional no-clobber write
`SetIf(key, value, nil)` — set only if the key currently has no value,
otherwise fail (`kv.ErrPredicateFailed` in the repository). -/
def SetIf (st : Store) (key value : Bytes) : Except Bytes Store :=
  match lookup st key with
  | none => .ok ((key, value) :: st)
  | some _ => .error key

/-! ## The wire format (`pkg/kv/import.go`) -/

/-- `Header` from `pkg/kv/import.go`: metadata for an import/export file.
`Timestamp` (`time.Time`) is modelled as a natural tick count. -/
structure Header where
  LakeFSVersion : String
  PkgName : String
  DBVersion : Nat
  Timestamp : Nat
deriving DecidableEq, Repr

/-- The zero value `Header{}` that `Import` compares against. -/
def Header.zero : Header := ⟨"", "", 0, 0⟩

/-- `Entry` from `pkg/kv`: a key and a value. `Value` is a Go `[]byte`
whose `nil` (structural absence) is distinguished from the present empty
slice, hence an `Option`. -/
structure Entry where
  Key : Bytes
  Value : Option Bytes
deriving DecidableEq, Repr

/-- One result of `jd.Decode(&entry)` inside the loop: either a decoded
entry or a non-EOF decode error; stream exhaustion is the end of the list. -/
inductive EntryRec where
  | ok (e : Entry)
  | failed
deriving DecidableEq, Repr

/-- The result of the first `jd.Decode(&header)`: EOF (empty stream), a
non-EOF decode error, or a decoded header. -/
inductive FirstRec where
  | eof
  | failed
  | ok (h : Header)
deriving DecidableEq, Repr

/-- An export stream as seen through the JSON decoder: the outcome of the
header read followed by the outcomes of the successive entry reads. -/
structure ImportStream where
  header : FirstRec
  entries : List EntryRec
deriving DecidableEq, Repr

/-- The errors `Import` can return, one per `return` site in the Go code.
`setIfConflict` carries the error returned by `store.SetIf` as-is. -/
inductive ImpErr where
  | emptyFile
  | decodingHeader
  | badHeader
  | decodingEntry
  | badEntryKey
  | badEntryValue
  | setIfConflict (key : Bytes)
deriving DecidableEq, Repr

/-- Which of `Import`'s errors wrap `kv.ErrInvalidFormat` (the spec's
`FormatError`): exactly the four `fmt.Errorf("...: %w", ErrInvalidFormat)`
sites. Decode errors wrap the JSON error and the conflict error is the
store's predicate-failure error, none of which wrap `ErrInvalidFormat`. -/
def ImpErr.wrapsInvalidFormat : ImpErr → Bool
  | .emptyFile => true
  | .badHeader => true
  | .badEntryKey => true
  | .badEntryValue => true
  | .decodingHeader => false
  | .decodingEntry => false
  | .setIfConflict _ => false

/-- The message prefix of each error's `fmt.Errorf` format string. -/
def ImpErr.msg : ImpErr → String
  | .emptyFile => "empty file"
  | .decodingHeader => "decoding header"
  | .badHeader => "bad header format"
  | .decodingEntry => "decoding entry"
  | .badEntryKey => "bad entry key"
  | .badEntryValue => "bad entry value"
  | .setIfConflict _ => "predicate failed"

/-- The entry loop of `Import` (`import.go` lines 44–64): for each record,
a decode error aborts; an empty key or an absent (`nil`) value aborts with
a format error; otherwise the entry is written with `store.SetIf` and any
write error aborts. The store is external state, so it is returned on
every exit path, error or not (no rollback exists in the code). -/
def importEntries : List EntryRec → Store → Option ImpErr × Store
  | [], st => (none, st)
  | .failed :: _, st => (some .decodingEntry, st)
  | .ok e :: rest, st =>
    if e.Key.length = 0 then (some .badEntryKey, st)
    else
      match e.Value with
      | none => (some .badEntryValue, st)
      | some v =>
        match SetIf st e.Key v with
        | .error k => (some (.setIfConflict k), st)
        | .ok st' => importEntries rest st'

/-- `Import` from `pkg/kv/import.go`: read the header (EOF ⇒ "empty file",
decode error ⇒ "decoding header", zero header ⇒ "bad header format"),
then run the entry loop. Returns the error, if any, together with the
store as left behind. -/
def Import (s : ImportStream) (st : Store) : Option ImpErr × Store :=
  match s.header with
  | .eof => (some .emptyFile, st)
  | .failed => (some .decodingHeader, st)
  | .ok h =>
    if h = Header.zero then (some .badHeader, st)
    else importEntries s.entries st

/-! ## The migration coordinator (`pkg/kv/postgres/migrate.go`)

The effectful collaborators (`kv.Open`, `store.Set`, `os.MkdirTemp`,
`os.CreateTemp`/provider export/`kv.Import` inside each task, `pgxpool.Exec`,
`os.RemoveAll`) are modelled by an environment that fixes each call's
outcome; the coordinator's behaviour is its returned error together with
the trace of actions it performed, in order. -/

/-- Modelled from the spec: the completion constant
`kv.InitialMigrateVersion` (its defining file is not under `src/`). The
spec requires only that the in-progress sentinel `0` written by `Migrate`
is strictly below it. -/
def InitialMigrateVersion : Nat := 1

/-- Modelled from the spec: the outcome of `kv.GetDBVersion` — the marker
is either absent (`kv.ErrNotFound`), unreadable for another reason, or
present with a numeric value. -/
inductive KvGetErr where
  | notFound
  | otherErr
deriving DecidableEq, Repr

/-- `validateVersion` from `pkg/kv/postgres/migrate.go`, as a function of
the result of `kv.GetDBVersion`: `ErrNotFound` ⇒ no reset needed; a read
version ⇒ reset needed exactly when it is below `InitialMigrateVersion`;
any other read error is propagated. -/
def validateVersion : Except KvGetErr Nat → Except KvGetErr Bool
  | .error .notFound => .ok false
  | .ok version => .ok (decide (version < InitialMigrateVersion))
  | .error e => .error e

/-- A registered provider as `Migrate` sees it: its name, the outcome of
its whole task (temp-file creation, export, seek and `kv.Import`; `none`
means success, `some msg` the error it returned) and its owned tables. -/
structure Provider where
  name : String
  result : Option String
  tables : List String
deriving DecidableEq, Repr

deriving instance DecidableEq for Except

/-- Outcomes of the effectful calls `Migrate` makes, in program order. -/
structure Env where
  openOk : Bool
  versionRead : Except KvGetErr Nat
  dropKVOk : Bool
  reopenOk : Bool
  setInProgressOk : Bool
  mkdirOk : Bool
  providers : List Provider
  setCompleteOk : Bool
  execDropOk : Bool
  removeOk : Bool
deriving DecidableEq, Repr

/-- The two fields of `params.Database` that `Migrate` consults. -/
structure Params where
  KVEnabled : Bool
  DropTables : Bool
deriving DecidableEq, Repr

/-- The errors `Migrate` can return, one per `return` site. `aggregate`
is `g.Wait().ErrorOrNil()`: the combined failures of the provider tasks. -/
inductive MigErr where
  | openFailed
  | validateFailed (e : KvGetErr)
  | dropKVFailed
  | reopenFailed
  | setMarkerFailed
  | mkdirFailed
  | aggregate (msgs : List String)
  | setVersionFailed
  | dropTablesFailed
deriving DecidableEq, Repr

/-- Observable actions of `Migrate`, recorded in order. `setMarker v`
is `store.Set(kv.DBVersionPath, v)`; `execDropTables ts` is the single
`DROP TABLE IF EXISTS` command issued over the sanitized names `ts`;
`removeWorkspace ok` is the `os.RemoveAll` attempt and its outcome. -/
inductive Event where
  | openStore
  | closeStore
  | dropKVTable
  | reopenStore
  | setMarker (v : Nat)
  | mkdirTemp
  | runProvider (name : String)
  | execDropTables (ts : List String)
  | removeWorkspace (ok : Bool)
deriving DecidableEq, Repr

/-- `pgx.Identifier{table}.Sanitize()` for a single identifier: wrap in
double quotes, doubling any embedded double quote. -/
def sanitize (s : String) : String :=
  "\"" ++ String.mk (s.toList.flatMap (fun c => if c = '"' then ['"', '"'] else [c])) ++ "\""

/-- `dropTables` from `pkg/kv/postgres/migrate.go`: an empty table list is
a successful no-op issuing no command; otherwise one `DROP TABLE IF EXISTS`
command over the sanitized names, whose failure is wrapped and returned. -/
def dropTables (execOk : Bool) (tables : List String) : Option MigErr × List Event :=
  if tables.length < 1 then (none, [])
  else if execOk then (none, [.execDropTables (tables.map sanitize)])
  else (some .dropTablesFailed, [.execDropTables (tables.map sanitize)])

/-- The task-launch events of the provider loop, in registry order. -/
def providerEvents (ps : List Provider) : List Event :=
  ps.map (fun p => .runProvider p.name)

/-- The `tables` accumulator of the provider loop: the concatenation of
every registered provider's owned tables, collected before the tasks run. -/
def allTables (ps : List Provider) : List String :=
  (ps.map Provider.tables).flatten

/-- The failures collected by the `multierror.Group`: the error of every
failed provider task. -/
def failures (ps : List Provider) : List String :=
  ps.filterMap Provider.result

/-- `Migrate` after a successful (possible) reset: write the in-progress
sentinel `0` to the version marker, create the staging directory, run all
provider tasks, aggregate their failures; on full success write
`InitialMigrateVersion` to the marker, optionally drop the source tables,
and attempt to remove the staging directory — that attempt's failure is
only logged, the function still returns success. -/
def afterReset (env : Env) (pa : Params) : Option MigErr × List Event :=
  if env.setInProgressOk = false then (some .setMarkerFailed, [.setMarker 0])
  else if env.mkdirOk = false then (some .mkdirFailed, [.setMarker 0, .mkdirTemp])
  else
    let pevs := providerEvents env.providers
    let fs := failures env.providers
    if fs = [] then
      if env.setCompleteOk = false then
        (some .setVersionFailed, .setMarker 0 :: .mkdirTemp :: pevs ++ [.setMarker InitialMigrateVersion])
      else
        let (r, devs) :=
          if pa.DropTables then dropTables env.execDropOk (allTables env.providers)
          else (none, [])
        match r with
        | some err =>
          (some err, .setMarker 0 :: .mkdirTemp :: pevs ++ .setMarker InitialMigrateVersion :: devs)
        | none =>
          (none, .setMarker 0 :: .mkdirTemp :: pevs ++ .setMarker InitialMigrateVersion :: devs
            ++ [.removeWorkspace env.removeOk])
    else (some (.aggregate fs), .setMarker 0 :: .mkdirTemp :: pevs)

/-- The body of `Migrate` after the store is open: validate the version
and, if a previous attempt is stale, drop the KV backing table and reopen
(recreate) the store before anything else. -/
def afterOpen (env : Env) (pa : Params) : Option MigErr × List Event :=
  match validateVersion env.versionRead with
  | .error e => (some (.validateFailed e), [])
  | .ok shouldDrop =>
    if shouldDrop then
      if env.dropKVOk = false then (some .dropKVFailed, [.dropKVTable])
      else if env.reopenOk = false then (some .reopenFailed, [.dropKVTable, .reopenStore])
      else
        let (r, evs) := afterReset env pa
        (r, .dropKVTable :: .reopenStore :: evs)
    else afterReset env pa

/-- `Migrate` from `pkg/kv/postgres/migrate.go`: a no-op unless KV is
enabled; open the store (closed on every later exit path), then run the
body. -/
def Migrate (env : Env) (pa : Params) : Option MigErr × List Event :=
  if pa.KVEnabled = false then (none, [])
  else if env.openOk = false then (some .openFailed, [.openStore])
  else
    let (r, evs) := afterOpen env pa
    (r, .openStore :: evs ++ [.closeStore])

/-- The calls up to and including `os.MkdirTemp` all succeed, so `Migrate`
reaches the provider loop. -/
def setupOk (env : Env) : Bool :=
  env.openOk &&
    (match validateVersion env.versionRead with
     | .ok true => env.dropKVOk && env.reopenOk
     | .ok false => true
     | .error _ => false) &&
    env.setInProgressOk && env.mkdirOk

/-! ## The Azure URL split (`pkg/ingest/store/azure.go`)

`net/url` is external: a URL is modelled by the fields the function
touches, and `ResolveReference` against a reference carrying only an
absolute path keeps the base's scheme and host and takes the reference's
path. -/

/-- The fields of `url.URL` that `extractAzurePrefix` uses. The path is a
list of characters so the Go string functions are structural. -/
structure URL where
  Scheme : String
  Host : String
  Path : List Char
deriving DecidableEq, Repr

/-- `base.ResolveReference(&url.URL{Path: p})` for a non-empty absolute
path `p`: the base's scheme and host with the reference's path. -/
def resolveReference (base : URL) (p : List Char) : URL :=
  { Scheme := base.Scheme, Host := base.Host, Path := p }

/-- `strings.SplitN(s, "/", 2)`: `none` when `s` has no slash (one part),
otherwise the part before the first slash and everything after it. -/
def splitOnce : List Char → Option (List Char × List Char)
  | [] => none
  | c :: cs =>
    if c = '/' then some ([], cs)
    else
      match splitOnce cs with
      | none => none
      | some (a, b) => some (c :: a, b)

/-- The error `ErrAzureInvalidURL`. -/
inductive AzureErr where
  | invalidURL
deriving DecidableEq, Repr

/-- `extractAzurePrefix` from `pkg/ingest/store/azure.go`: strip leading
slashes from the path; empty ⇒ `ErrAzureInvalidURL`; no further slash ⇒
only a container, return the input URL and an empty prefix; otherwise
rebuild the container-only URL and return the remainder as the prefix. -/
def extractAzurePrefix (u : URL) : Except AzureErr (URL × List Char) :=
  let path := u.Path.dropWhile (fun c => c = '/')
  if path = [] then .error .invalidURL
  else
    match splitOnce path with
    | none => .ok (u, [])
    | some (a, b) => .ok (resolveReference u ('/' :: a), b)

/-! ## Helper lemmas about the import loop -/

/-- A record that trips one of the loop's format checks: a decode failure,
an empty key or an absent value. -/
def EntryRec.isBad : EntryRec → Bool
  | .failed => true
  | .ok e => e.Key.isEmpty || e.Value.isNone

/-! ## Concrete streams and environments used by witnesses and the
counterexample -/

/-- The stream refuting C1 as stated: a valid header, the same key written
twice, then an entry with an absent value. -/
def conflictThenAbsent : ImportStream :=
  ⟨FirstRec.ok ⟨"v0.80", "auth", 1, 0⟩,
    [EntryRec.ok ⟨[1], some []⟩, EntryRec.ok ⟨[1], some []⟩, EntryRec.ok ⟨[2], none⟩]⟩

/-- A one-entry stream whose only entry has an absent value. -/
def absentOnlyStream : ImportStream :=
  ⟨FirstRec.ok ⟨"v0.80", "auth", 1, 0⟩, [EntryRec.ok ⟨[2], none⟩]⟩

/-- A stream whose single entry has a present zero-length value. -/
def emptyValStream : ImportStream :=
  ⟨FirstRec.ok ⟨"v0.80", "auth", 1, 0⟩, [EntryRec.ok ⟨[5], some []⟩]⟩

/-- A stream writing the same key twice. -/
def dupKeyStream : ImportStream :=
  ⟨FirstRec.ok ⟨"v0.80", "auth", 1, 0⟩,
    [EntryRec.ok ⟨[3], some [9]⟩, EntryRec.ok ⟨[3], some [8]⟩]⟩

/-- A stream with one valid entry followed by a record that fails to
decode. -/
def failAfterOneStream : ImportStream :=
  ⟨FirstRec.ok ⟨"v0.80", "auth", 1, 0⟩,
    [EntryRec.ok ⟨[1], some [2]⟩, EntryRec.failed]⟩

/-- An environment whose version marker holds `0`: a stale earlier
attempt. -/
def envStale : Env where
  openOk := true
  versionRead := .ok 0
  dropKVOk := true
  reopenOk := true
  setInProgressOk := true
  mkdirOk := true
  providers := []
  setCompleteOk := true
  execDropOk := true
  removeOk := true

/-- An environment with one failing provider task. -/
def envFail : Env where
  openOk := true
  versionRead := .error .notFound
  dropKVOk := true
  reopenOk := true
  setInProgressOk := true
  mkdirOk := true
  providers := [⟨"auth", some "boom", ["t1"]⟩]
  setCompleteOk := true
  execDropOk := true
  removeOk := true

/-- An environment where both provider tasks succeed and workspace
deletion fails. -/
def envSuccess : Env where
  openOk := true
  versionRead := .error .notFound
  dropKVOk := true
  reopenOk := true
  setInProgressOk := true
  mkdirOk := true
  providers := [⟨"auth", none, ["t1", "t2"]⟩, ⟨"graveler", none, ["t3"]⟩]
  setCompleteOk := true
  execDropOk := true
  removeOk := false

/-- An environment with no registered providers. -/
def envNoProviders : Env where
  openOk := true
  versionRead := .error .notFound
  dropKVOk := true
  reopenOk := true
  setInProgressOk := true
  mkdirOk := true
  providers := []
  setCompleteOk := true
  execDropOk := true
  removeOk := true

theorem SetIf_ok (st : Store) (k v : Bytes) (st' : Store)
    (hs : SetIf st k v = .ok st') :
    st' = (k, v) :: st ∧ lookup st k = none := by
  unfold SetIf at hs
  cases hfind : lookup st k with
  | none => rw [hfind] at hs; cases hs; exact ⟨rfl, rfl⟩
  | some w => rw [hfind] at hs; cases hs

theorem lookup_SetIf (st : Store) (k' v' : Bytes) (st' : Store) (k v : Bytes)
    (hs : SetIf st k' v' = .ok st') (hl : lookup st k = some v) :
    lookup st' k = some v := by
  obtain ⟨hst, hfind⟩ := SetIf_ok st k' v' st' hs
  subst hst
  have hne : ¬ k' = k := by
    intro he
    rw [he, hl] at hfind
    cases hfind
  simp [lookup, hne, hl]

theorem importEntries_append_ok (a b : List EntryRec) (st : Store)
    (h : (importEntries a st).1 = none) :
    importEntries (a ++ b) st = importEntries b (importEntries a st).2 := by
  induction a generalizing st with
  | nil => simp [importEntries]
  | cons r a ih =>
    cases r with
    | failed => simp [importEntries] at h
    | ok e =>
      by_cases hk : e.Key.length = 0
      · simp [importEntries, hk] at h
      · cases hv : e.Value with
        | none => simp [importEntries, hk, hv] at h
        | some v =>
          cases hs : SetIf st e.Key v with
          | error k2 => simp [importEntries, hk, hv, hs] at h
          | ok st' =>
            have h' : (importEntries a st').1 = none := by
              simpa [importEntries, hk, hv, hs] using h
            simp [importEntries, hk, hv, hs, ih st' h']

theorem lookup_importEntries (l : List EntryRec) (st : Store) (k v : Bytes)
    (hl : lookup st k = some v) :
    lookup (importEntries l st).2 k = some v := by
  induction l generalizing st with
  | nil => simpa [importEntries]
  | cons r l ih =>
    cases r with
    | failed => simpa [importEntries]
    | ok e =>
      by_cases hk : e.Key.length = 0
      · simpa [importEntries, hk]
      · cases hv : e.Value with
        | none => simpa [importEntries, hk, hv]
        | some w =>
          cases hs : SetIf st e.Key w with
          | error k2 => simpa [importEntries, hk, hv, hs]
          | ok st' =>
            have hl' := lookup_SetIf st e.Key w st' k v hs hl
            simpa [importEntries, hk, hv, hs] using ih st' hl'

theorem importEntries_ok_lookup (l : List EntryRec) (st : Store) (e : Entry) (v : Bytes)
    (hok : (importEntries l st).1 = none)
    (hm : EntryRec.ok e ∈ l) (hv : e.Value = some v) :
    lookup (importEntries l st).2 e.Key = some v := by
  induction l generalizing st with
  | nil => cases hm
  | cons r l ih =>
    cases r with
    | failed => simp [importEntries] at hok
    | ok e' =>
      by_cases hk : e'.Key.length = 0
      · simp [importEntries, hk] at hok
      · cases hv' : e'.Value with
        | none => simp [importEntries, hk, hv'] at hok
        | some w =>
          cases hs : SetIf st e'.Key w with
          | error k2 => simp [importEntries, hk, hv', hs] at hok
          | ok st' =>
            have hok' : (importEntries l st').1 = none := by
              simpa [importEntries, hk, hv', hs] using hok
            have hres : (importEntries (EntryRec.ok e' :: l) st).2 = (importEntries l st').2 := by
              simp [importEntries, hk, hv', hs]
            rw [hres]
            rcases List.mem_cons.mp hm with he | hm'
            · have he' : e = e' := by cases he; rfl
              subst he'
              have hw : w = v := by
                rw [hv] at hv'
                cases hv'
                rfl
              subst hw
              obtain ⟨hst, -⟩ := SetIf_ok st e.Key w st' hs
              have : lookup st' e.Key = some w := by
                subst hst
                simp [lookup]
              exact lookup_importEntries l st' e.Key w this
            · exact ih st' hok' hm'

theorem importEntries_mem (l : List EntryRec) (st : Store) (p : Bytes × Bytes)
    (hp : p ∈ (importEntries l st).2) :
    p ∈ st ∨ ∃ e, EntryRec.ok e ∈ l ∧ e.Key = p.1 ∧ e.Value = some p.2 := by
  induction l generalizing st with
  | nil => exact Or.inl (by simpa [importEntries] using hp)
  | cons r l ih =>
    cases r with
    | failed => exact Or.inl (by simpa [importEntries] using hp)
    | ok e =>
      by_cases hk : e.Key.length = 0
      · exact Or.inl (by simpa [importEntries, hk] using hp)
      · cases hv : e.Value with
        | none => exact Or.inl (by simpa [importEntries, hk, hv] using hp)
        | some w =>
          cases hs : SetIf st e.Key w with
          | error k2 => exact Or.inl (by simpa [importEntries, hk, hv, hs] using hp)
          | ok st' =>
            have hp' : p ∈ (importEntries l st').2 := by
              simpa [importEntries, hk, hv, hs] using hp
            obtain ⟨hst, -⟩ := SetIf_ok st e.Key w st' hs
            rcases ih st' hp' with hin | ⟨e2, hm2, hk2, hv2⟩
            · subst hst
              rcases List.mem_cons.mp hin with he | hin2
              · refine Or.inr ⟨e, List.mem_cons_self _ _, ?_, ?_⟩
                · simp [he]
                · simp [he, hv]
              · exact Or.inl hin2
            · exact Or.inr ⟨e2, List.mem_cons_of_mem _ hm2, hk2, hv2⟩

theorem importEntries_fails (l : List EntryRec) (st : Store)
    (h : ∃ r ∈ l, EntryRec.isBad r = true) :
    (importEntries l st).1 ≠ none := by
  induction l generalizing st with
  | nil => obtain ⟨r, hr, -⟩ := h; cases hr
  | cons r l ih =>
    cases r with
    | failed => simp [importEntries]
    | ok e =>
      by_cases hk : e.Key.length = 0
      · simp [importEntries, hk]
      · cases hv : e.Value with
        | none => simp [importEntries, hk, hv]
        | some w =>
          have h' : ∃ r ∈ l, EntryRec.isBad r = true := by
            obtain ⟨r, hr, hbad⟩ := h
            rcases List.mem_cons.mp hr with he | hm
            · subst he
              have hbad' : e.Key.isEmpty = true ∨ e.Value.isNone = true := by
                simpa [EntryRec.isBad, Bool.or_eq_true] using hbad
              rcases hbad' with hke | hvn
              · exact absurd (by simp [List.isEmpty_iff.mp hke]) hk
              · rw [hv] at hvn
                simp [Option.isNone] at hvn
            · exact ⟨r, hm, hbad⟩
          cases hs : SetIf st e.Key w with
          | error k2 => simp [importEntries, hk, hv, hs]
          | ok st' => simpa [importEntries, hk, hv, hs] using ih st' h'

theorem Import_header_ok (s : ImportStream) (st : Store) (h : Header)
    (hh : s.header = FirstRec.ok h) (hz : ¬ h = Header.zero) :
    Import s st = importEntries s.entries st := by
  cases s with
  | mk hd entries =>
    cases hh
    simp [Import, hz]

/-! ## Helper lemmas about the migration coordinator -/

theorem mem_providerEvents (ev : Event) (ps : List Provider)
    (h : ev ∈ providerEvents ps) : ∃ p ∈ ps, ev = Event.runProvider p.name := by
  simp only [providerEvents, List.mem_map] at h
  obtain ⟨p, hp, he⟩ := h
  exact ⟨p, hp, he.symm⟩

theorem setupOk_dest (env : Env) (h : setupOk env = true) :
    env.openOk = true ∧ env.setInProgressOk = true ∧ env.mkdirOk = true ∧
      (validateVersion env.versionRead = .ok false ∨
        (validateVersion env.versionRead = .ok true ∧
          env.dropKVOk = true ∧ env.reopenOk = true)) := by
  unfold setupOk at h
  cases hvv : validateVersion env.versionRead with
  | error e =>
    rw [hvv] at h
    simp at h
  | ok b =>
    rw [hvv] at h
    cases b with
    | false =>
      simp only [Bool.and_eq_true] at h
      exact ⟨h.1.1.1, h.1.2, h.2, Or.inl rfl⟩
    | true =>
      simp only [Bool.and_eq_true] at h
      exact ⟨h.1.1.1, h.1.2, h.2, Or.inr ⟨rfl, h.1.1.2.1, h.1.1.2.2⟩⟩

theorem Migrate_eq (env : Env) (pa : Params)
    (hkv : pa.KVEnabled = true) (hopen : env.openOk = true) :
    Migrate env pa =
      ((afterOpen env pa).1,
        Event.openStore :: (afterOpen env pa).2 ++ [Event.closeStore]) := by
  rcases hE : afterOpen env pa with ⟨r, evs⟩
  simp [Migrate, hkv, hopen, hE]

theorem afterOpen_noDrop (env : Env) (pa : Params)
    (h : validateVersion env.versionRead = .ok false) :
    afterOpen env pa = afterReset env pa := by
  simp [afterOpen, h]

theorem afterOpen_drop (env : Env) (pa : Params)
    (h : validateVersion env.versionRead = .ok true)
    (h1 : env.dropKVOk = true) (h2 : env.reopenOk = true) :
    afterOpen env pa =
      ((afterReset env pa).1,
        Event.dropKVTable :: Event.reopenStore :: (afterReset env pa).2) := by
  rcases hE : afterReset env pa with ⟨r, evs⟩
  simp [afterOpen, h, h1, h2, hE]

theorem afterReset_fail (env : Env) (pa : Params)
    (hsip : env.setInProgressOk = true) (hmk : env.mkdirOk = true)
    (hfs : failures env.providers ≠ []) :
    afterReset env pa =
      (some (MigErr.aggregate (failures env.providers)),
        Event.setMarker 0 :: Event.mkdirTemp :: providerEvents env.providers) := by
  simp [afterReset, hsip, hmk, hfs]

theorem dropTables_ok (execOk : Bool) (tables : List String)
    (h : execOk = true ∨ tables = []) :
    (dropTables execOk tables).1 = none := by
  rcases h with h | h
  · subst h
    by_cases ht : tables.length < 1 <;> simp [dropTables, ht]
  · subst h
    simp [dropTables]

theorem afterReset_success (env : Env) (pa : Params)
    (hsip : env.setInProgressOk = true) (hmk : env.mkdirOk = true)
    (hfs : failures env.providers = [])
    (hsc : env.setCompleteOk = true)
    (hdt : pa.DropTables = true → env.execDropOk = true ∨ allTables env.providers = []) :
    afterReset env pa =
      (none,
        Event.setMarker 0 :: Event.mkdirTemp :: providerEvents env.providers
          ++ Event.setMarker InitialMigrateVersion ::
            (if pa.DropTables = true then (dropTables env.execDropOk (allTables env.providers)).2
             else [])
          ++ [Event.removeWorkspace env.removeOk]) := by
  cases hD : pa.DropTables with
  | false =>
    simp [afterReset, hsip, hmk, hfs, hsc, hD]
  | true =>
    rcases hT : dropTables env.execDropOk (allTables env.providers) with ⟨r, devs⟩
    have hr : r = none := by
      have := dropTables_ok env.execDropOk (allTables env.providers) (hdt hD)
      rw [hT] at this
      exact this
    subst hr
    simp [afterReset, hsip, hmk, hfs, hsc, hD, hT]

theorem dropKVTable_not_mem_providerEvents (ps : List Provider) :
    Event.dropKVTable ∉ providerEvents ps := by
  intro h
  obtain ⟨p, -, hp⟩ := mem_providerEvents _ _ h
  cases hp

theorem setMarker_not_mem_providerEvents (v : Nat) (ps : List Provider) :
    Event.setMarker v ∉ providerEvents ps := by
  intro h
  obtain ⟨p, -, hp⟩ := mem_providerEvents _ _ h
  cases hp

theorem removeWorkspace_not_mem_providerEvents (b : Bool) (ps : List Provider) :
    Event.removeWorkspace b ∉ providerEvents ps := by
  intro h
  obtain ⟨p, -, hp⟩ := mem_providerEvents _ _ h
  cases hp

theorem execDropTables_not_mem_providerEvents (ts : List String) (ps : List Provider) :
    Event.execDropTables ts ∉ providerEvents ps := by
  intro h
  obtain ⟨p, -, hp⟩ := mem_providerEvents _ _ h
  cases hp

theorem dropTables_events (execOk : Bool) (tables : List String) (ev : Event)
    (h : ev ∈ (dropTables execOk tables).2) :
    ev = Event.execDropTables (tables.map sanitize) := by
  by_cases h1 : tables.length < 1
  · simp [dropTables, h1] at h
  · by_cases h2 : execOk = true
    · simpa [dropTables, h1, h2] using h
    · simpa [dropTables, h1, h2] using h

theorem dropTables_cmd (tables : List String) (h : tables ≠ []) :
    (dropTables true tables).2 = [Event.execDropTables (tables.map sanitize)] := by
  have h1 : ¬ tables.length < 1 := by
    simpa [Nat.lt_one_iff, List.length_eq_zero] using h
  simp [dropTables, h1]

theorem dropKVTable_not_mem_dropTables (execOk : Bool) (tables : List String) :
    Event.dropKVTable ∉ (dropTables execOk tables).2 := by
  intro h
  cases dropTables_events execOk tables _ h

theorem dropKVTable_not_mem_afterReset (env : Env) (pa : Params) :
    Event.dropKVTable ∉ (afterReset env pa).2 := by
  have hp := dropKVTable_not_mem_providerEvents env.providers
  unfold afterReset
  by_cases h1 : env.setInProgressOk = false
  · simp [h1]
  · by_cases h2 : env.mkdirOk = false
    · simp [h1, h2]
    · by_cases h3 : failures env.providers = []
      · by_cases h4 : env.setCompleteOk = false
        · simp [h1, h2, h3, h4, hp]
        · by_cases h5 : pa.DropTables = true
          · rcases hT : dropTables env.execDropOk (allTables env.providers) with ⟨r, devs⟩
            have hd : Event.dropKVTable ∉ devs := by
              have h6 := dropKVTable_not_mem_dropTables env.execDropOk (allTables env.providers)
              rw [hT] at h6
              exact h6
            cases r <;> simp [h1, h2, h3, h4, h5, hT, hp, hd]
          · simp [h1, h2, h3, h4, h5, hp]
      · simp [h1, h2, h3, hp]

theorem afterReset_head (env : Env) (pa : Params) :
    (afterReset env pa).2 = Event.setMarker 0 :: (afterReset env pa).2.tail := by
  unfold afterReset
  by_cases h1 : env.setInProgressOk = false
  · simp [h1]
  · by_cases h2 : env.mkdirOk = false
    · simp [h1, h2]
    · by_cases h3 : failures env.providers = []
      · by_cases h4 : env.setCompleteOk = false
        · simp [h1, h2, h3, h4]
        · by_cases h5 : pa.DropTables = true
          · rcases hT : dropTables env.execDropOk (allTables env.providers) with ⟨r, devs⟩
            cases r with
            | none => simp [h1, h2, h3, h4, h5, hT]
            | some err => simp [h1, h2, h3, h4, h5, hT]
          · simp [h1, h2, h3, h4, h5]
      · simp [h1, h2, h3]

theorem migrate_fail_aux (env : Env) (pa : Params)
    (hkv : pa.KVEnabled = true) (hsetup : setupOk env = true)
    (hfs : failures env.providers ≠ []) :
    ∃ evs, Migrate env pa = (some (MigErr.aggregate (failures env.providers)), evs)
      ∧ Event.setMarker InitialMigrateVersion ∉ evs
      ∧ (∀ b, Event.removeWorkspace b ∉ evs) := by
  obtain ⟨hopen, hsip, hmk, hvv⟩ := setupOk_dest env hsetup
  have hAR := afterReset_fail env pa hsip hmk hfs
  have hsm := setMarker_not_mem_providerEvents InitialMigrateVersion env.providers
  have hrw := fun b => removeWorkspace_not_mem_providerEvents b env.providers
  rcases hvv with hvv | ⟨hvv, hdk, hro⟩
  · refine ⟨_, by rw [Migrate_eq env pa hkv hopen, afterOpen_noDrop env pa hvv, hAR], ?_, ?_⟩
    · simp [InitialMigrateVersion]
      intro h
      exact hsm (by simpa [InitialMigrateVersion] using h)
    · intro b
      simp
      intro h
      exact hrw b h
  · refine ⟨_, by rw [Migrate_eq env pa hkv hopen, afterOpen_drop env pa hvv hdk hro, hAR], ?_, ?_⟩
    · simp [InitialMigrateVersion]
      intro h
      exact hsm (by simpa [InitialMigrateVersion] using h)
    · intro b
      simp
      intro h
      exact hrw b h

theorem migrate_success_eq (env : Env) (pa : Params)
    (hkv : pa.KVEnabled = true) (hsetup : setupOk env = true)
    (hfs : failures env.providers = []) (hsc : env.setCompleteOk = true)
    (hdt : pa.DropTables = true → env.execDropOk = true ∨ allTables env.providers = []) :
    ∃ evs₀, (evs₀ = [] ∨ evs₀ = [Event.dropKVTable, Event.reopenStore])
      ∧ Migrate env pa =
        (none, (Event.openStore :: evs₀)
          ++ (Event.setMarker 0 :: Event.mkdirTemp :: providerEvents env.providers)
          ++ (Event.setMarker InitialMigrateVersion ::
              (if pa.DropTables = true then (dropTables env.execDropOk (allTables env.providers)).2
               else []))
          ++ [Event.removeWorkspace env.removeOk, Event.closeStore]) := by
  obtain ⟨hopen, hsip, hmk, hvv⟩ := setupOk_dest env hsetup
  have hAR := afterReset_success env pa hsip hmk hfs hsc hdt
  rcases hvv with hvv | ⟨hvv, hdk, hro⟩
  · refine ⟨[], Or.inl rfl, ?_⟩
    rw [Migrate_eq env pa hkv hopen, afterOpen_noDrop env pa hvv, hAR]
    simp
  · refine ⟨[Event.dropKVTable, Event.reopenStore], Or.inr rfl, ?_⟩
    rw [Migrate_eq env pa hkv hopen, afterOpen_drop env pa hvv hdk hro, hAR]
    simp

/-! ## Helper lemmas about the Azure URL split -/

theorem splitOnce_none (l : List Char) (h : '/' ∉ l) : splitOnce l = none := by
  induction l with
  | nil => rfl
  | cons c cs ih =>
    have hc : ¬ c = '/' := fun he => h (by subst he; exact List.mem_cons_self _ _)
    have hcs : '/' ∉ cs := fun hm => h (List.mem_cons_of_mem _ hm)
    simp [splitOnce, hc, ih hcs]

theorem splitOnce_append (a b : List Char) (ha : '/' ∉ a) :
    splitOnce (a ++ '/' :: b) = some (a, b) := by
  induction a with
  | nil => simp [splitOnce]
  | cons c cs ih =>
    have hc : ¬ c = '/' := fun he => ha (by subst he; exact List.mem_cons_self _ _)
    have hcs : '/' ∉ cs := fun hm => ha (List.mem_cons_of_mem _ hm)
    simp [splitOnce, hc, ih hcs]

/-! ## The claims -/

/-- C10: `extractAzurePrefix` fails with `ErrAzureInvalidURL` exactly when
the URL's path is empty after stripping leading slashes; a slash-free
stripped path names only a container and the input URL is returned
unchanged with an empty prefix; a container followed by a remainder yields
the container-only URL (the base's scheme and host with path
`"/" + container`) and the remainder as the prefix. -/
theorem extractAzurePrefix_spec (u : URL) :
    (extractAzurePrefix u = .error .invalidURL ↔
      u.Path.dropWhile (fun c => c = '/') = [])
    ∧ (∀ a, u.Path.dropWhile (fun c => c = '/') = a → a ≠ [] → '/' ∉ a →
        extractAzurePrefix u = .ok (u, []))
    ∧ (∀ a b, u.Path.dropWhile (fun c => c = '/') = a ++ '/' :: b → '/' ∉ a →
        extractAzurePrefix u = .ok (⟨u.Scheme, u.Host, '/' :: a⟩, b)) := by
  refine ⟨⟨?_, ?_⟩, ?_, ?_⟩
  · intro h
    by_cases hp : u.Path.dropWhile (fun c => c = '/') = []
    · exact hp
    · exfalso
      unfold extractAzurePrefix at h
      rw [if_neg hp] at h
      cases hsp : splitOnce (u.Path.dropWhile (fun c => c = '/')) with
      | none => rw [hsp] at h; cases h
      | some p => rw [hsp] at h; cases h
  · intro h
    unfold extractAzurePrefix
    rw [if_pos h]
  · intro a ha hne hslash
    unfold extractAzurePrefix
    rw [ha, if_neg hne, splitOnce_none a hslash]
  · intro a b hab hslash
    have hne : ¬ a ++ '/' :: b = [] := by simp
    unfold extractAzurePrefix
    rw [hab, if_neg hne, splitOnce_append a b hslash]
    rfl

/-- Witness for C10: a concrete container-plus-remainder URL. -/
theorem extractAzurePrefix_spec_witness :
    extractAzurePrefix
        ⟨"https", "acct.blob.core.windows.net",
          '/' :: ("container".toList ++ '/' :: "a/b".toList)⟩
      = .ok (⟨"https", "acct.blob.core.windows.net", '/' :: "container".toList⟩,
          "a/b".toList) :=
  (extractAzurePrefix_spec
      ⟨"https", "acct.blob.core.windows.net",
        '/' :: ("container".toList ++ '/' :: "a/b".toList)⟩).2.2
    "container".toList "a/b".toList (by decide) (by decide)

/-- C5: decoding an empty stream fails with the "empty file" format error
and a structurally valid first record whose `Header` fields are all zero
fails with the "bad header format" error; both wrap `ErrInvalidFormat`,
carry distinct messages, and nothing is written in either case. -/
theorem import_empty_stream_distinct_from_zero_header
    (entries : List EntryRec) (st : Store) :
    Import ⟨FirstRec.eof, entries⟩ st = (some ImpErr.emptyFile, st)
    ∧ Import ⟨FirstRec.ok Header.zero, entries⟩ st = (some ImpErr.badHeader, st)
    ∧ ImpErr.wrapsInvalidFormat ImpErr.emptyFile = true
    ∧ ImpErr.wrapsInvalidFormat ImpErr.badHeader = true
    ∧ ImpErr.emptyFile ≠ ImpErr.badHeader
    ∧ ImpErr.msg ImpErr.emptyFile ≠ ImpErr.msg ImpErr.badHeader := by
  refine ⟨rfl, ?_, rfl, rfl, by decide, by decide⟩
  simp [Import]

/-- Witness for C5 at the empty record list and the empty store. -/
theorem import_empty_stream_distinct_from_zero_header_witness :
    Import ⟨FirstRec.eof, []⟩ [] = (some ImpErr.emptyFile, [])
    ∧ Import ⟨FirstRec.ok Header.zero, []⟩ [] = (some ImpErr.badHeader, [])
    ∧ ImpErr.wrapsInvalidFormat ImpErr.emptyFile = true
    ∧ ImpErr.wrapsInvalidFormat ImpErr.badHeader = true
    ∧ ImpErr.emptyFile ≠ ImpErr.badHeader
    ∧ ImpErr.msg ImpErr.emptyFile ≠ ImpErr.msg ImpErr.badHeader :=
  import_empty_stream_distinct_from_zero_header [] []

/-- C1 (amended): a stream containing an entry record with a structurally
absent value never imports successfully, and an absent value is never
written: every pair of the resulting store was either there already or
came from an entry whose value is present. The failure is a FormatError
(wraps `ErrInvalidFormat`) whenever every record before the absent-value
entry decodes as a valid entry whose conditional write succeeds. -/
theorem import_absent_value_fails (s : ImportStream) (st : Store)
    (pre rest : List EntryRec) (e : Entry)
    (hs : s.entries = pre ++ EntryRec.ok e :: rest) (hv : e.Value = none) :
    (Import s st).1 ≠ none
    ∧ (∀ p ∈ (Import s st).2,
        p ∈ st ∨ ∃ e', EntryRec.ok e' ∈ s.entries ∧ e'.Key = p.1 ∧ e'.Value = some p.2)
    ∧ (∀ h, s.header = FirstRec.ok h → ¬ h = Header.zero →
        (importEntries pre st).1 = none →
        ∃ err, (Import s st).1 = some err ∧ ImpErr.wrapsInvalidFormat err = true) := by
  cases s with
  | mk hd entries =>
    simp only at hs
    subst hs
    cases hd with
    | eof =>
      refine ⟨by simp [Import], ?_, ?_⟩
      · intro p hp
        exact Or.inl (by simpa [Import] using hp)
      · intro h hh
        cases hh
    | failed =>
      refine ⟨by simp [Import], ?_, ?_⟩
      · intro p hp
        exact Or.inl (by simpa [Import] using hp)
      · intro h hh
        cases hh
    | ok h =>
      by_cases hz : h = Header.zero
      · subst hz
        refine ⟨by simp [Import], ?_, ?_⟩
        · intro p hp
          exact Or.inl (by simpa [Import] using hp)
        · intro h' hh' hz'
          cases hh'
          exact absurd rfl hz'
      · have hEq : Import ⟨FirstRec.ok h, pre ++ EntryRec.ok e :: rest⟩ st
            = importEntries (pre ++ EntryRec.ok e :: rest) st :=
          Import_header_ok _ st h rfl hz
        refine ⟨?_, ?_, ?_⟩
        · rw [hEq]
          apply importEntries_fails
          exact ⟨EntryRec.ok e, by simp, by simp [EntryRec.isBad, hv]⟩
        · intro p hp
          rw [hEq] at hp
          exact importEntries_mem _ st p hp
        · intro h' hh' hz' hpre
          rw [hEq, importEntries_append_ok pre (EntryRec.ok e :: rest) st hpre]
          by_cases hk : e.Key.length = 0
          · exact ⟨ImpErr.badEntryKey, by simp [importEntries, hk], rfl⟩
          · exact ⟨ImpErr.badEntryValue, by simp [importEntries, hk, hv], rfl⟩

/-- C1 counterexample: this stream contains an entry whose value is
structurally absent, yet `Import` on an empty store fails with the
conditional-write conflict on the duplicated key `[1]`, which is not a
FormatError — so an absent-value entry does not cause a FormatError
failure regardless of the entries preceding it. -/
theorem import_absent_value_conflict_preempts :
    EntryRec.ok ⟨[2], none⟩ ∈ conflictThenAbsent.entries
    ∧ (Entry.mk [2] none).Value = none
    ∧ (Import conflictThenAbsent []).1 = some (ImpErr.setIfConflict [1])
    ∧ ImpErr.wrapsInvalidFormat (ImpErr.setIfConflict [1]) = false :=
  ⟨by decide, rfl, by decide, rfl⟩

/-- Witness for C1 (amended) at a concrete stream and the empty store. -/
theorem import_absent_value_fails_witness :
    (Import absentOnlyStream []).1 ≠ none
    ∧ (∀ p ∈ (Import absentOnlyStream []).2,
        p ∈ ([] : Store) ∨ ∃ e', EntryRec.ok e' ∈ absentOnlyStream.entries
          ∧ e'.Key = p.1 ∧ e'.Value = some p.2)
    ∧ (∀ h, absentOnlyStream.header = FirstRec.ok h → ¬ h = Header.zero →
        (importEntries [] []).1 = none →
        ∃ err, (Import absentOnlyStream []).1 = some err
          ∧ ImpErr.wrapsInvalidFormat err = true) :=
  import_absent_value_fails absentOnlyStream [] [] [] ⟨[2], none⟩ rfl rfl

/-- C6: an entry with an empty (zero-length) key makes `Import` fail with
the "bad entry key" error, which wraps `ErrInvalidFormat`, and nothing is
written for that entry — the store is exactly what the preceding records
left; an entry whose value is present but zero-length passes both checks
and is written to the store by the conditional write. -/
theorem import_empty_key_rejected_empty_value_accepted
    (s : ImportStream) (st : Store) (pre rest : List EntryRec) (e : Entry) (h : Header)
    (hh : s.header = FirstRec.ok h) (hz : ¬ h = Header.zero)
    (hs : s.entries = pre ++ EntryRec.ok e :: rest)
    (hpre : (importEntries pre st).1 = none) :
    (e.Key = [] →
      Import s st = (some ImpErr.badEntryKey, (importEntries pre st).2)
      ∧ ImpErr.wrapsInvalidFormat ImpErr.badEntryKey = true)
    ∧ (¬ e.Key = [] → e.Value = some [] →
        lookup (importEntries pre st).2 e.Key = none →
        Import s st = importEntries rest ((e.Key, []) :: (importEntries pre st).2)
        ∧ lookup ((e.Key, []) :: (importEntries pre st).2) e.Key = some []) := by
  have hEq : Import s st = importEntries s.entries st := Import_header_ok s st h hh hz
  rw [hs] at hEq
  rw [hEq, importEntries_append_ok pre (EntryRec.ok e :: rest) st hpre]
  constructor
  · intro hke
    have hklen : e.Key.length = 0 := by simp [hke]
    exact ⟨by simp [importEntries, hklen], rfl⟩
  · intro hk hv hlook
    have hklen : ¬ e.Key.length = 0 := by simpa [List.length_eq_zero] using hk
    have hset : SetIf (importEntries pre st).2 e.Key []
        = .ok ((e.Key, []) :: (importEntries pre st).2) := by
      simp [SetIf, hlook]
    exact ⟨by simp [importEntries, hklen, hv, hset], by simp [lookup]⟩

/-- Witness for C6 at a concrete stream and the empty store. -/
theorem import_empty_key_rejected_empty_value_accepted_witness :
    (([5] : Bytes) = [] →
      Import emptyValStream [] = (some ImpErr.badEntryKey, (importEntries [] []).2)
      ∧ ImpErr.wrapsInvalidFormat ImpErr.badEntryKey = true)
    ∧ (¬ ([5] : Bytes) = [] → (some [] : Option Bytes) = some [] →
        lookup (importEntries [] []).2 [5] = none →
        Import emptyValStream [] = importEntries [] (([5], []) :: (importEntries [] []).2)
        ∧ lookup (([5], []) :: (importEntries [] []).2) [5] = some []) :=
  import_empty_key_rejected_empty_value_accepted emptyValStream [] [] []
    ⟨[5], some []⟩ ⟨"v0.80", "auth", 1, 0⟩ rfl (by decide) rfl rfl

/-- C4: each valid entry is applied by the no-clobber conditional write:
an unwritten key is added and the loop continues; a key that already has a
value makes `SetIf` fail and its conflict error is returned for the whole
stream; hence a key already imported earlier in the same stream fails at
its second write; and at the coordinator level any failed provider task
produces the aggregate error with the completion marker never written. -/
theorem import_conditional_write (s : ImportStream) (st : Store)
    (pre rest : List EntryRec) (e : Entry) (v : Bytes) (h : Header)
    (hh : s.header = FirstRec.ok h) (hz : ¬ h = Header.zero)
    (hs : s.entries = pre ++ EntryRec.ok e :: rest)
    (hpre : (importEntries pre st).1 = none)
    (hk : ¬ e.Key = []) (hv : e.Value = some v) :
    (lookup (importEntries pre st).2 e.Key = none →
      Import s st = importEntries rest ((e.Key, v) :: (importEntries pre st).2))
    ∧ (∀ w, lookup (importEntries pre st).2 e.Key = some w →
        Import s st = (some (ImpErr.setIfConflict e.Key), (importEntries pre st).2))
    ∧ (∀ e' v', EntryRec.ok e' ∈ pre → e'.Key = e.Key → e'.Value = some v' →
        Import s st = (some (ImpErr.setIfConflict e.Key), (importEntries pre st).2))
    ∧ (∀ env pa, pa.KVEnabled = true → setupOk env = true →
        failures env.providers ≠ [] →
        ∃ evs, Migrate env pa = (some (MigErr.aggregate (failures env.providers)), evs)
          ∧ Event.setMarker InitialMigrateVersion ∉ evs) := by
  have hEq : Import s st = importEntries s.entries st := Import_header_ok s st h hh hz
  rw [hs] at hEq
  have hklen : ¬ e.Key.length = 0 := by simpa [List.length_eq_zero] using hk
  have hstep := importEntries_append_ok pre (EntryRec.ok e :: rest) st hpre
  refine ⟨?_, ?_, ?_, ?_⟩
  · intro hlook
    have hset : SetIf (importEntries pre st).2 e.Key v
        = .ok ((e.Key, v) :: (importEntries pre st).2) := by
      simp [SetIf, hlook]
    rw [hEq, hstep]
    simp [importEntries, hklen, hv, hset]
  · intro w hlook
    have hset : SetIf (importEntries pre st).2 e.Key v = .error e.Key := by
      simp [SetIf, hlook]
    rw [hEq, hstep]
    simp [importEntries, hklen, hv, hset]
  · intro e' v' hmem hkey hval
    have hlook : lookup (importEntries pre st).2 e.Key = some v' := by
      have hl := importEntries_ok_lookup pre st e' v' hpre hmem hval
      rw [hkey] at hl
      exact hl
    have hset : SetIf (importEntries pre st).2 e.Key v = .error e.Key := by
      simp [SetIf, hlook]
    rw [hEq, hstep]
    simp [importEntries, hklen, hv, hset]
  · intro env pa hkv hsetup hfs
    obtain ⟨evs, hM, hnm, -⟩ := migrate_fail_aux env pa hkv hsetup hfs
    exact ⟨evs, hM, hnm⟩

/-- Witness for C4 at a concrete duplicated-key stream and the empty
store. -/
theorem import_conditional_write_witness :
    (lookup (importEntries [EntryRec.ok ⟨[3], some [9]⟩] []).2 [3] = none →
      Import dupKeyStream []
        = importEntries [] (([3], [8]) :: (importEntries [EntryRec.ok ⟨[3], some [9]⟩] []).2))
    ∧ (∀ w, lookup (importEntries [EntryRec.ok ⟨[3], some [9]⟩] []).2 [3] = some w →
        Import dupKeyStream []
          = (some (ImpErr.setIfConflict [3]), (importEntries [EntryRec.ok ⟨[3], some [9]⟩] []).2))
    ∧ (∀ e' v', EntryRec.ok e' ∈ [EntryRec.ok (⟨[3], some [9]⟩ : Entry)] → e'.Key = [3] →
        e'.Value = some v' →
        Import dupKeyStream []
          = (some (ImpErr.setIfConflict [3]), (importEntries [EntryRec.ok ⟨[3], some [9]⟩] []).2))
    ∧ (∀ env pa, pa.KVEnabled = true → setupOk env = true →
        failures env.providers ≠ [] →
        ∃ evs, Migrate env pa = (some (MigErr.aggregate (failures env.providers)), evs)
          ∧ Event.setMarker InitialMigrateVersion ∉ evs) :=
  import_conditional_write dupKeyStream [] [EntryRec.ok ⟨[3], some [9]⟩] []
    ⟨[3], some [8]⟩ [8] ⟨"v0.80", "auth", 1, 0⟩ rfl (by decide) rfl rfl
    (by decide) rfl

/-- C8: `Import` is not atomic on error: if the record after a cleanly
processed prefix fails (decode error, empty key, absent value or write
conflict), the returned store is exactly the store the prefix produced,
and every valid entry of the prefix is still found in it — there is no
rollback on any error path. -/
theorem import_no_rollback (s : ImportStream) (st : Store)
    (pre rest : List EntryRec) (r : EntryRec) (h : Header)
    (hh : s.header = FirstRec.ok h) (hz : ¬ h = Header.zero)
    (hs : s.entries = pre ++ r :: rest)
    (hpre : (importEntries pre st).1 = none)
    (hr : (importEntries [r] (importEntries pre st).2).1 ≠ none) :
    (∃ err, Import s st = (some err, (importEntries pre st).2))
    ∧ (∀ e v, EntryRec.ok e ∈ pre → e.Value = some v →
        lookup (importEntries pre st).2 e.Key = some v) := by
  have hEq : Import s st = importEntries s.entries st := Import_header_ok s st h hh hz
  rw [hs] at hEq
  rw [hEq, importEntries_append_ok pre (r :: rest) st hpre]
  constructor
  · cases r with
    | failed => exact ⟨ImpErr.decodingEntry, by simp [importEntries]⟩
    | ok e =>
      by_cases hk : e.Key.length = 0
      · exact ⟨ImpErr.badEntryKey, by simp [importEntries, hk]⟩
      · cases hv : e.Value with
        | none => exact ⟨ImpErr.badEntryValue, by simp [importEntries, hk, hv]⟩
        | some v =>
          cases hset : SetIf (importEntries pre st).2 e.Key v with
          | error k2 =>
            have hk2 : k2 = e.Key := by
              unfold SetIf at hset
              cases hl : lookup (importEntries pre st).2 e.Key with
              | none => rw [hl] at hset; cases hset
              | some w => rw [hl] at hset; cases hset; rfl
            subst hk2
            exact ⟨ImpErr.setIfConflict e.Key, by simp [importEntries, hk, hv, hset]⟩
          | ok st' =>
            exfalso
            apply hr
            simp [importEntries, hk, hv, hset]
  · intro e v hmem hval
    exact importEntries_ok_lookup pre st e v hpre hmem hval

/-- Witness for C8 at a concrete stream and the empty store. -/
theorem import_no_rollback_witness :
    (∃ err, Import failAfterOneStream []
      = (some err, (importEntries [EntryRec.ok ⟨[1], some [2]⟩] []).2))
    ∧ (∀ e v, EntryRec.ok e ∈ [EntryRec.ok (⟨[1], some [2]⟩ : Entry)] → e.Value = some v →
        lookup (importEntries [EntryRec.ok ⟨[1], some [2]⟩] []).2 e.Key = some v) :=
  import_no_rollback failAfterOneStream [] [EntryRec.ok ⟨[1], some [2]⟩] []
    EntryRec.failed ⟨"v0.80", "auth", 1, 0⟩ rfl (by decide) rfl rfl (by decide)

/-- C2: the version check asks for a reset exactly when the marker is
present with a value strictly below `InitialMigrateVersion`; an absent
marker means no reset. When no reset is needed the coordinator never drops
the KV backing table and still proceeds, writing the in-progress marker
right after opening the store; when a reset is needed it drops the KV
table and reopens (recreates) the store before writing the in-progress
marker. -/
theorem migrate_reset_exactly_when_stale (env : Env) (pa : Params)
    (hkv : pa.KVEnabled = true) (hopen : env.openOk = true) :
    (∀ v, validateVersion (Except.ok v) = Except.ok true ↔ v < InitialMigrateVersion)
    ∧ validateVersion (Except.error KvGetErr.notFound) = Except.ok false
    ∧ (validateVersion env.versionRead = Except.ok false →
        Event.dropKVTable ∉ (Migrate env pa).2
        ∧ ∃ evs, (Migrate env pa).2 = Event.openStore :: Event.setMarker 0 :: evs)
    ∧ (validateVersion env.versionRead = Except.ok true →
        env.dropKVOk = true → env.reopenOk = true →
        ∃ evs, (Migrate env pa).2
          = Event.openStore :: Event.dropKVTable :: Event.reopenStore
            :: Event.setMarker 0 :: evs) := by
  refine ⟨?_, rfl, ?_, ?_⟩
  · intro v
    simp [validateVersion]
  · intro hvv
    have hM := Migrate_eq env pa hkv hopen
    rw [afterOpen_noDrop env pa hvv] at hM
    obtain ⟨evs, hevs⟩ : ∃ evs, (afterReset env pa).2 = Event.setMarker 0 :: evs :=
      ⟨_, afterReset_head env pa⟩
    constructor
    · rw [hM]
      intro hmem
      rcases List.mem_cons.mp hmem with hc | hmem2
      · cases hc
      · rcases List.mem_append.mp hmem2 with hc | hc
        · exact dropKVTable_not_mem_afterReset env pa hc
        · simp at hc
    · refine ⟨evs ++ [Event.closeStore], ?_⟩
      rw [hM]
      simp [hevs]
  · intro hvv hdk hro
    have hM := Migrate_eq env pa hkv hopen
    rw [afterOpen_drop env pa hvv hdk hro] at hM
    obtain ⟨evs, hevs⟩ : ∃ evs, (afterReset env pa).2 = Event.setMarker 0 :: evs :=
      ⟨_, afterReset_head env pa⟩
    refine ⟨evs ++ [Event.closeStore], ?_⟩
    rw [hM]
    simp [hevs]

/-- Witness for C2 at the stale environment. -/
theorem migrate_reset_exactly_when_stale_witness :
    (∀ v, validateVersion (Except.ok v) = Except.ok true ↔ v < InitialMigrateVersion)
    ∧ validateVersion (Except.error KvGetErr.notFound) = Except.ok false
    ∧ (validateVersion envStale.versionRead = Except.ok false →
        Event.dropKVTable ∉ (Migrate envStale ⟨true, false⟩).2
        ∧ ∃ evs, (Migrate envStale ⟨true, false⟩).2
          = Event.openStore :: Event.setMarker 0 :: evs)
    ∧ (validateVersion envStale.versionRead = Except.ok true →
        envStale.dropKVOk = true → envStale.reopenOk = true →
        ∃ evs, (Migrate envStale ⟨true, false⟩).2
          = Event.openStore :: Event.dropKVTable :: Event.reopenStore
            :: Event.setMarker 0 :: evs) :=
  migrate_reset_exactly_when_stale envStale ⟨true, false⟩ rfl rfl

/-- C3: when one or more provider tasks fail, `Migrate` returns the single
aggregate error combining the collected failures (every failed task's
error is among them), it never writes the completion constant to the
version marker, and it never attempts to delete the staging workspace. -/
theorem migrate_provider_failure_aggregates (env : Env) (pa : Params)
    (hkv : pa.KVEnabled = true) (hsetup : setupOk env = true)
    (hfail : failures env.providers ≠ []) :
    (∀ p ∈ env.providers, ∀ m, p.result = some m → m ∈ failures env.providers)
    ∧ ∃ evs, Migrate env pa = (some (MigErr.aggregate (failures env.providers)), evs)
      ∧ Event.setMarker InitialMigrateVersion ∉ evs
      ∧ (∀ b, Event.removeWorkspace b ∉ evs) := by
  refine ⟨?_, migrate_fail_aux env pa hkv hsetup hfail⟩
  intro p hp m hm
  exact List.mem_filterMap.mpr ⟨p, hp, hm⟩

/-- Witness for C3 at the one-failing-provider environment. -/
theorem migrate_provider_failure_aggregates_witness :
    (∀ p ∈ envFail.providers, ∀ m, p.result = some m → m ∈ failures envFail.providers)
    ∧ ∃ evs, Migrate envFail ⟨true, false⟩
        = (some (MigErr.aggregate (failures envFail.providers)), evs)
      ∧ Event.setMarker InitialMigrateVersion ∉ evs
      ∧ (∀ b, Event.removeWorkspace b ∉ evs) :=
  migrate_provider_failure_aggregates envFail ⟨true, false⟩ rfl rfl (by decide)

/-- C7: when every provider task succeeds, `Migrate` writes the completion
constant to the version marker; then, with drop-source-tables enabled, it
issues one drop command over the tables of all registered providers; then
it attempts to delete the staging workspace, and even when that deletion
fails the attempt is only logged — `Migrate` returns success. -/
theorem migrate_success_finalizes (env : Env) (pa : Params)
    (hkv : pa.KVEnabled = true) (hsetup : setupOk env = true)
    (hfs : failures env.providers = []) (hsc : env.setCompleteOk = true)
    (hexec : env.execDropOk = true) :
    ∃ evs₀ devs,
      (pa.DropTables = true → allTables env.providers ≠ [] →
        devs = [Event.execDropTables ((allTables env.providers).map sanitize)])
      ∧ (pa.DropTables = false → devs = [])
      ∧ Migrate env pa =
        (none, (Event.openStore :: evs₀)
          ++ (Event.setMarker 0 :: Event.mkdirTemp :: providerEvents env.providers)
          ++ (Event.setMarker InitialMigrateVersion :: devs)
          ++ [Event.removeWorkspace env.removeOk, Event.closeStore]) := by
  obtain ⟨evs₀, hcase, hM⟩ :=
    migrate_success_eq env pa hkv hsetup hfs hsc (fun _ => Or.inl hexec)
  refine ⟨evs₀,
    (if pa.DropTables = true then (dropTables env.execDropOk (allTables env.providers)).2
     else []),
    ?_, ?_, hM⟩
  · intro hdt hne
    rw [if_pos hdt, hexec, dropTables_cmd (allTables env.providers) hne]
  · intro hdt
    simp [hdt]

/-- Witness for C7 at the all-successful environment with a failing
workspace deletion. -/
theorem migrate_success_finalizes_witness :
    ∃ evs₀ devs,
      ((true : Bool) = true → allTables envSuccess.providers ≠ [] →
        devs = [Event.execDropTables ((allTables envSuccess.providers).map sanitize)])
      ∧ ((true : Bool) = false → devs = [])
      ∧ Migrate envSuccess ⟨true, true⟩ =
        (none, (Event.openStore :: evs₀)
          ++ (Event.setMarker 0 :: Event.mkdirTemp :: providerEvents envSuccess.providers)
          ++ (Event.setMarker InitialMigrateVersion :: devs)
          ++ [Event.removeWorkspace envSuccess.removeOk, Event.closeStore]) :=
  migrate_success_finalizes envSuccess ⟨true, true⟩ rfl rfl rfl rfl rfl

/-- C9: dropping an empty table list is a successful no-op that issues no
drop command; hence with no registered providers, `Migrate` with
drop-source-tables enabled still succeeds and never issues a drop command
against the relational source. -/
theorem dropTables_empty_noop (env : Env) (pa : Params)
    (hkv : pa.KVEnabled = true) (hsetup : setupOk env = true)
    (hps : env.providers = []) (hsc : env.setCompleteOk = true)
    (hdt : pa.DropTables = true) :
    (∀ execOk : Bool, dropTables execOk [] = (none, []))
    ∧ ∃ evs, Migrate env pa = (none, evs)
      ∧ (∀ ts, Event.execDropTables ts ∉ evs) := by
  have hfs : failures env.providers = [] := by rw [hps]; rfl
  have hat : allTables env.providers = [] := by rw [hps]; rfl
  obtain ⟨evs₀, hcase, hM⟩ :=
    migrate_success_eq env pa hkv hsetup hfs hsc (fun _ => Or.inr hat)
  refine ⟨fun execOk => by simp [dropTables], _, hM, ?_⟩
  intro ts hmem
  rcases hcase with h0 | h0 <;>
    subst h0 <;>
    simp [hps, hat, providerEvents, dropTables, allTables, hdt] at hmem

/-- Witness for C9 at the provider-less environment with
drop-source-tables enabled. -/
theorem dropTables_empty_noop_witness :
    (∀ execOk : Bool, dropTables execOk [] = (none, []))
    ∧ ∃ evs, Migrate envNoProviders ⟨true, true⟩ = (none, evs)
      ∧ (∀ ts, Event.execDropTables ts ∉ evs) :=
  dropTables_empty_noop envNoProviders ⟨true, true⟩ rfl rfl rfl rfl rfl

end LakeFS
